import Mathlib

/-!
Shallow embedding of the OnderdelenLijn scraper (src/scraper_new.py and
src/scraper_final.py) and proofs about its extraction, category resolution,
pagination and orchestration logic.

DOM material is modelled as the structured data the BeautifulSoup / Selenium
queries of the source return (an item element is the tuple of the query
results the code reads off it); Python strings are Lean strings, Python
floats produced by parsing simple decimal literals are rationals.
-/

namespace Onderdelen

/-- The site base URL (`self.base_url` in scraper_new.py). -/
def base_url : String := "https://www.onderdelenlijn.nl"

/- ### Python string primitives -/

/-- Python substring containment: the empty needle is contained in anything. -/
def listIsInfix (needle : List Char) : List Char → Bool
  | [] => needle.isEmpty
  | c :: rest => needle.isPrefixOf (c :: rest) || listIsInfix needle rest

/-- Python `needle in hay` on strings. -/
def strContains (hay needle : String) : Bool :=
  listIsInfix needle.toList hay.toList

/-- Python `s.lower()` (ASCII range, which covers the scraper's data). -/
def pyToLower (s : String) : String :=
  String.mk (s.toList.map Char.toLower)

/-- Python `s.upper()` (ASCII range). -/
def pyToUpper (s : String) : String :=
  String.mk (s.toList.map Char.toUpper)

/-- Python `s.strip()`. -/
def pyStrip (s : String) : String :=
  String.mk (((s.toList.dropWhile Char.isWhitespace).reverse.dropWhile
    Char.isWhitespace).reverse)

/-- Python `s.startswith(p)`. -/
def pyStartsWith (s p : String) : Bool :=
  p.toList.isPrefixOf s.toList

/-- Python `s.rstrip(cs)`: drop all trailing characters belonging to `cs`. -/
def pyRstripSet (s : String) (cs : List Char) : String :=
  String.mk ((s.toList.reverse.dropWhile (fun c => cs.contains c)).reverse)

/-- The apostrophe character (U+0027). -/
def quoteChar : Char := Char.ofNat 39

/-- The apostrophe as a one-character string. -/
def quoteStr : String := String.mk [quoteChar]

/-- Python `s.split(sep)` for a one-character separator. -/
def splitOnChar (sep : Char) : List Char → List (List Char)
  | [] => [[]]
  | c :: rest =>
    let r := splitOnChar sep rest
    if c = sep then [] :: r
    else
      match r with
      | h :: t => (c :: h) :: t
      | [] => [[c]]

/-- Python `s.replace(sub, repl)` for a non-empty `sub` (left-to-right,
non-overlapping). -/
def pyReplaceList (sub repl : List Char) : List Char → List Char
  | [] => []
  | c :: rest =>
    if h : sub ≠ [] ∧ sub.isPrefixOf (c :: rest) then
      repl ++ pyReplaceList sub repl ((c :: rest).drop sub.length)
    else
      c :: pyReplaceList sub repl rest
  termination_by cs => cs.length
  decreasing_by
    · simp only [List.length_drop, List.length_cons]
      have hne : sub.length ≠ 0 := by
        simpa [List.length_eq_zero] using h.1
      omega
    · simp

/-- Python `s.replace(sub, repl)` on strings. -/
def pyReplace (s sub repl : String) : String :=
  String.mk (pyReplaceList sub.toList repl.toList s.toList)

/-- Characters matched by the regex class `\s` (ASCII fragment). -/
def isPySpace (c : Char) : Bool :=
  c = ' ' || c = Char.ofNat 9 || c = Char.ofNat 10 || c = Char.ofNat 13 ||
    c = Char.ofNat 11 || c = Char.ofNat 12

/-- Truthiness of an optional string (a missing dict key or an empty string
is falsy in Python). -/
def truthyOptStr : Option String → Bool
  | none => false
  | some s => s ≠ ""

/- ### Decimal parsing (Python `float` on the simple literals the regexes
produce) -/

/-- Numeric value of a run of decimal digits. -/
def digitsVal (ds : List Char) : ℕ :=
  ds.foldl (fun n c => 10 * n + (c.toNat - 48)) 0

/-- Python `float` on a captured group of shape `digits [ "." digits ]`
(possibly with a trailing dot and nothing after it). -/
def pyFloat (cs : List Char) : ℚ :=
  let ip := cs.takeWhile Char.isDigit
  let rest := cs.dropWhile Char.isDigit
  let fp :=
    match rest with
    | c :: t => if c = '.' then t.takeWhile Char.isDigit else []
    | [] => []
  (digitsVal ip : ℚ) + (digitsVal fp : ℚ) / (10 : ℚ) ^ fp.length

/-- Attempt of the regex tail `\s*(\d+[\.\,]?\d*)` right after a matched
euro sign; returns the captured group. -/
def euroTry (cs : List Char) : Option (List Char) :=
  let afterSpace := cs.dropWhile isPySpace
  let digits := afterSpace.takeWhile Char.isDigit
  if digits.isEmpty then none
  else
    let rest := afterSpace.dropWhile Char.isDigit
    match rest with
    | c :: rest2 =>
      if c = '.' || c = ',' then some (digits ++ c :: rest2.takeWhile Char.isDigit)
      else some digits
    | [] => some digits

/-- `re.search` for the pattern `€\s*(\d+[\.\,]?\d*)`: the captured group of
the first successful match position. -/
def euroSearch : List Char → Option (List Char)
  | [] => none
  | c :: rest =>
    if c = '€' then
      match euroTry rest with
      | some g => some g
      | none => euroSearch rest
    else euroSearch rest

/-- Greedy match of `\d+[\.\,]?\d*` at the first digit of the input
(`re.search`: the pattern can only start matching at a digit). -/
def numSearch (cs : List Char) : Option (List Char) :=
  let rest := cs.dropWhile (fun c => !c.isDigit)
  if rest.isEmpty then none
  else
    let digits := rest.takeWhile Char.isDigit
    let rest2 := rest.dropWhile Char.isDigit
    match rest2 with
    | c :: rest3 =>
      if c = '.' || c = ',' then some (digits ++ c :: rest3.takeWhile Char.isDigit)
      else some digits
    | [] => some digits

/-- Comma-as-decimal-separator normalization (`.replace(',', '.')` on a
captured group). -/
def commaToDot (cs : List Char) : List Char :=
  cs.map (fun c => if c = ',' then '.' else c)

/- ### Page Extractor of scraper_new.py (`extract_part_data`) -/

/-- A Python price value: a parsed float, the on-request sentinel string
`Prijs op aanvraag`, or the sentinel `N/A`. -/
inductive PriceVal
  | num (v : ℚ)
  | onRequest
  | na
  deriving DecidableEq, Repr

/-- `div.description` inside a result item: the stripped text of its nested
`span.bold`, when that span exists. -/
structure DescriptionDiv where
  bold : Option String
  deriving DecidableEq, Repr

/-- `div.pricing` inside a result item: the stripped text of its nested
`span.block`, when that span exists. -/
structure PricingDiv where
  block : Option String
  deriving DecidableEq, Repr

/-- An `img` element: its `src` attribute, when present. -/
structure ImgElem where
  src : Option String
  deriving DecidableEq, Repr

/-- `div.thumbnail` inside a result item: its nested `img`, when present. -/
structure ThumbnailDiv where
  img : Option ImgElem
  deriving DecidableEq, Repr

/-- One `li.shoppingcart` result item, as seen through the queries of
`extract_part_data`: each field is the result of the corresponding
`find` / `find_all` / `get` call of the source. `specItems` lists, for each
`span.item`, the stripped texts of its nested spans. -/
structure LiItem where
  description : Option DescriptionDiv
  priceText : Option String
  pricing : Option PricingDiv
  specItems : List (List String)
  thumbnail : Option ThumbnailDiv
  onclick : Option String
  deriving DecidableEq, Repr

/-- The `search_info` dict as read by `extract_part_data` (via `.get`). -/
structure SearchInfo where
  license_plate : Option String
  part_name : Option String
  category : Option String
  deriving DecidableEq, Repr

/-- The `part_data` dict built per item (fields that are only conditionally
assigned are options). -/
structure PartData where
  search_license_plate : Option String
  search_part_name : Option String
  category : Option String
  scraped_at : String
  title : Option String
  price : Option PriceVal
  supplier : Option String
  specifications : List (String × String)
  image_url : Option String
  source_url : Option String
  deriving DecidableEq, Repr

/-- Python-dict insertion: overwrite in place when the key exists, append
otherwise. -/
def dictUpd {α : Type} (m : List (String × α)) (k : String) (v : α) :
    List (String × α) :=
  if m.any (fun p => p.1 = k) then
    m.map (fun p => if p.1 = k then (k, v) else p)
  else m ++ [(k, v)]

/-- The specifications mapping: for every `span.item` with at least two
nested spans, key is the first span's text with all colons removed, value is
the second span's text; later duplicates overwrite. -/
def specsOf (items : List (List String)) : List (String × String) :=
  items.foldl
    (fun m spans =>
      match spans with
      | k :: v :: _ => dictUpd m (String.mk (k.toList.filter (fun c => c ≠ ':'))) v
      | _ => m)
    []

/-- Price extraction of `extract_part_data`: on-request phrase first
(case-insensitively), else the first `€ digits[.,digits]` pattern parsed with
comma normalization, else `N/A`; a missing price node gives `N/A`. -/
def priceVal (priceText : Option String) : PriceVal :=
  match priceText with
  | none => .na
  | some t =>
    if strContains (pyToLower t) "prijs op aanvraag" then .onRequest
    else
      match euroSearch t.toList with
      | some g => .num (pyFloat (commaToDot g))
      | none => .na

/-- Image URL extraction: absolute-ized `src` of the thumbnail image,
`N/A` when the thumbnail div, the img, or its src is missing. -/
def imageUrlOf (thumbnail : Option ThumbnailDiv) : String :=
  match thumbnail with
  | none => "N/A"
  | some th =>
    match th.img with
    | none => "N/A"
    | some img =>
      match img.src with
      | none => "N/A"
      | some src => if pyStartsWith src "http" then src else base_url ++ src

/-- The marker searched for in the item's `onclick` attribute. -/
def hrefMarker : String := "window.location.href=" ++ quoteStr

/-- Source URL extraction from the `onclick` attribute: the text between the
first pair of apostrophes, absolutized; `N/A` otherwise. -/
def sourceUrlOf (onclick : Option String) : String :=
  match onclick with
  | none => "N/A"
  | some oc =>
    if oc ≠ "" && strContains oc hrefMarker then
      match (splitOnChar quoteChar oc.toList).get? 1 with
      | some urlPart => base_url ++ String.mk urlPart
      | none => "N/A"
    else "N/A"

/-- Title extraction: the stripped text of the `span.bold` nested under the
`div.description`, when both exist. -/
def titleOf (description : Option DescriptionDiv) : Option String :=
  match description with
  | none => none
  | some d =>
    match d.bold with
    | none => none
    | some t => some t

/-- One iteration of the item loop of `extract_part_data`: the `part_data`
dict built for a single item (`now` is the `time.strftime` reading). -/
def buildPart (now : String) (si : SearchInfo) (it : LiItem) : PartData :=
  { search_license_plate := si.license_plate
    search_part_name := si.part_name
    category := si.category
    scraped_at := now
    title := titleOf it.description
    price := some (priceVal it.priceText)
    supplier :=
      match it.pricing with
      | none => none
      | some pr =>
        match pr.block with
        | none => none
        | some s => some s
    specifications := specsOf it.specItems
    image_url := some (imageUrlOf it.thumbnail)
    source_url := some (sourceUrlOf it.onclick) }

/-- The item loop of `extract_part_data`: a record is appended only when the
title key is present and non-empty. -/
def epLoop (now : String) (si : SearchInfo) : List LiItem → List PartData
  | [] => []
  | it :: rest =>
    let pd := buildPart now si it
    if truthyOptStr pd.title then pd :: epLoop now si rest
    else epLoop now si rest

/-- `extract_part_data(soup, search_info)`: `soup` is the optional
`ul#result-list` container with its `li.shoppingcart` items; a missing
container yields no records. -/
def extract_part_data (now : String) (soup : Option (List LiItem))
    (si : SearchInfo) : List PartData :=
  match soup with
  | none => []
  | some items => epLoop now si items

/- ### Category Resolver of scraper_new.py (`find_category_urls`) -/

/-- An anchor element, as seen through the XPath patterns and attribute
reads of `find_category_urls`: its `title` attribute, the text of its first
nested span text node, its visible text and its `href` attribute. -/
structure Anchor where
  title : Option String
  spanText : Option String
  text : String
  href : Option String
  deriving DecidableEq, Repr

/-- The DOM state `find_category_urls` queries: whether the
`search-results-list` container appears within the stage-1 wait, the anchors
inside that container, and the remaining anchors of the page (reached only
by the broad fallback pattern). -/
structure ResolverDom where
  containerAppears : Bool
  containerAnchors : List Anchor
  outsideAnchors : List Anchor
  deriving DecidableEq, Repr

/-- XPath `contains(translate(x, UPPER, lower), needle)` where a missing
attribute reads as the empty string (and an empty needle matches
anything). -/
def xpTitleMatch (needle : String) (anchors : List Anchor) : List Anchor :=
  anchors.filter (fun a => strContains (pyToLower (a.title.getD "")) needle)

/-- Same, matching against the anchor's nested span text. -/
def xpSpanMatch (needle : String) (anchors : List Anchor) : List Anchor :=
  anchors.filter (fun a => strContains (pyToLower (a.spanText.getD "")) needle)

/-- The five XPath patterns of `find_category_urls`, in source order:
title-attribute match in the container, span-text match in the container,
title match with the needle's trailing `s` stripped, title match with the
needle's trailing `en` stripped, and the broad any-anchor fallback. -/
def patternMatches (dom : ResolverDom) (part_lower : String) :
    List (List Anchor) :=
  [ xpTitleMatch part_lower dom.containerAnchors,
    xpSpanMatch part_lower dom.containerAnchors,
    xpTitleMatch (pyRstripSet part_lower ['s']) dom.containerAnchors,
    xpTitleMatch (pyRstripSet part_lower ['e', 'n']) dom.containerAnchors,
    xpTitleMatch part_lower (dom.containerAnchors ++ dom.outsideAnchors) ]

/-- The pattern loop: the first pattern whose wait produces a non-empty
element list wins, later patterns are not attempted. -/
def firstNonEmpty {α : Type} : List (List α) → List α
  | [] => []
  | l :: ls => if l.isEmpty then firstNonEmpty ls else l

/-- Post-processing of one matched link: label is the title attribute or,
when that is missing or empty, the stripped link text; kept only when the
href exists and contains `onderdeel`; relative hrefs are absolutized. -/
def linkEntry (a : Anchor) : Option (String × String) :=
  let label :=
    match a.title with
    | some t => if t ≠ "" then t else pyStrip a.text
    | none => pyStrip a.text
  match a.href with
  | some h =>
    if h ≠ "" && strContains h "onderdeel" then
      some (label, if pyStartsWith h "http" then h else base_url ++ h)
    else none
  | none => none

/-- `find_category_urls(part_name)`: the (label, url) pairs together with
the list of Diagnostic Capture tags emitted (`_debug_save_artifacts`
invocations). -/
def find_category_urls (dom : ResolverDom) (part_name : String) :
    List (String × String) × List String :=
  if !dom.containerAppears then ([], ["stage1_container_timeout"])
  else
    let part_lower := pyToLower part_name
    let matching := firstNonEmpty (patternMatches dom part_lower)
    if matching.isEmpty then ([], ["stage2_no_matches"])
    else (matching.filterMap linkEntry, [])

/- ### Pagination loop of scraper_new.py (`scrape_category_results`) -/

/-- The pagination "next" control (`input[type=submit][value=">"]`): absent
(`NoSuchElementException`), or present with its `is_enabled()` state and its
`disabled` attribute. -/
inductive NextBtn
  | absent
  | present (enabled : Bool) (disabledAttr : Bool)
  deriving DecidableEq, Repr

/-- One fixture page of a category listing: the optional `ul#result-list`
with its items, and the state of the "next" control on that page. -/
structure FixturePageNew where
  items : Option (List LiItem)
  nextBtn : NextBtn
  deriving Repr

/-- The pagination loop of `scrape_category_results`, yielding the per-page
record sequences: extract the current page; stop when the next control is
absent or disabled; otherwise click and continue, stopping defensively once
the page number exceeds 50. `site n` is the page shown after `n - 1`
clicks. -/
def paginateNew (now : String) (si : SearchInfo)
    (site : ℕ → FixturePageNew) (pageNumber : ℕ) : List (List PartData) :=
  let pageParts := extract_part_data now (site pageNumber).items si
  match (site pageNumber).nextBtn with
  | .absent => [pageParts]
  | .present enabled dis =>
    if !enabled || dis then [pageParts]
    else if 50 < pageNumber + 1 then [pageParts]
    else pageParts :: paginateNew now si site (pageNumber + 1)
  termination_by 51 - pageNumber
  decreasing_by omega

/-- `scrape_category_results(category_name, category_url, search_info)`:
runs the pagination loop from page 1 with the category name merged into the
search info, accumulating all records. -/
def scrape_category_results (now : String) (category_name : String)
    (si : SearchInfo) (site : ℕ → FixturePageNew) : List PartData :=
  (paginateNew now { si with category := some category_name } site 1).flatten

/- ### scraper_final.py: `extract_number`, `get_modeltype`,
`scrape_single_page` and its pagination loop -/

/-- `extract_number(text)`: strip all dots, search for the first
`\d+[\.\,]?\d*` match, parse with comma normalization; `None` on a falsy
input or no match. -/
def extract_number (text : String) : Option ℚ :=
  if text = "" then none
  else
    match numSearch (text.toList.filter (fun c => c ≠ '.')) with
    | some g => some (pyFloat (commaToDot g))
    | none => none

/-- The static plate→model fallback table of `get_modeltype`. -/
def modeltype_map : List (String × String) :=
  [ ("27-XH-VX", "8601"), ("27XHVX", "8601"), ("27xhvx", "8601"),
    ("37-LK-BB", "6593"), ("37LKBB", "6593"), ("37lkbb", "6593") ]

/-- Plate normalization of `get_modeltype`: uppercase, then remove all
hyphens, then remove all spaces. -/
def cleanPlate (license_plate : String) : String :=
  String.mk ((((pyToUpper license_plate).toList.filter (fun c => c ≠ '-')).filter
    (fun c => c ≠ ' ')))

/-- Python `dict.get` on the table (first matching key; the literal has no
duplicate keys). -/
def lookupMap (m : List (String × String)) (k : String) : Option String :=
  (m.find? (fun p => p.1 = k)).map (fun p => p.2)

/-- `get_modeltype(license_plate)`: fallback table lookup of the normalized
plate, defaulting to `8601`. -/
def get_modeltype (license_plate : String) : String :=
  (lookupMap modeltype_map (cleanPlate license_plate)).getD "8601"

/-- `div.pricing` of a scraper_final item: its full text and the stripped
text of its nested `span.block`, when that exists. -/
structure FinalPricing where
  text : String
  block : Option String
  deriving DecidableEq, Repr

/-- One `li.shoppingcart` item as seen by `scrape_single_page`: the stripped
text of its first `span.bold`, the text of its `span.price`, the
`span.item` detail rows nested under its `div.description` (each as the
list of its nested span texts), its `div.pricing`, and its `onclick`
attribute. -/
structure FinalLiItem where
  bold : Option String
  priceText : Option String
  description : Option (List (List String))
  pricing : Option FinalPricing
  onclick : Option String
  deriving DecidableEq, Repr

/-- The `part_data` dict built per item by `scrape_single_page`. -/
structure FinalPartData where
  search_license_plate : String
  search_part_name : String
  part_title : Option String
  price : Option ℚ
  build_year : Option ℤ
  engine_code : Option String
  mileage_km : Option ℤ
  supplier_name : Option String
  warranty_months : Option ℤ
  source_url : Option String
  part_condition : Option String
  deriving DecidableEq, Repr

/-- Python `int()` on a rational (truncation toward zero). -/
def pyTrunc (q : ℚ) : ℤ :=
  q.num.tdiv (q.den : ℤ)

/-- `re.search` of `Garantie\s+(\d+)\s*mnd` over the pricing text: the
captured month count of the first match. -/
def warrantySearch : List Char → Option ℕ
  | [] => none
  | c :: rest =>
    if ("Garantie".toList).isPrefixOf (c :: rest) then
      let after := (c :: rest).drop 8
      let sp := after.takeWhile isPySpace
      let afterSp := after.dropWhile isPySpace
      let digits := afterSp.takeWhile Char.isDigit
      let afterDigits := afterSp.dropWhile Char.isDigit
      if !sp.isEmpty && !digits.isEmpty &&
          ("mnd".toList).isPrefixOf (afterDigits.dropWhile isPySpace) then
        some (digitsVal digits)
      else warrantySearch rest
    else warrantySearch rest

/-- The truthiness gate of `if part_data.get('price'):` (and of
`if price_value:` before it): present and non-zero. -/
def priceTruthy : Option ℚ → Bool
  | none => false
  | some v => v ≠ 0

/-- The detail-row fold of `scrape_single_page`: `Bouwjaar`, `Motorcode`,
`Tellerstand` rows update the corresponding fields (later rows
overwrite). -/
def applyDetail (pd : FinalPartData) (spans : List String) : FinalPartData :=
  match spans with
  | k :: v :: _ =>
    if k = "Bouwjaar" then
      match extract_number v with
      | some y => if y ≠ 0 then { pd with build_year := some (pyTrunc y) } else pd
      | none => pd
    else if k = "Motorcode" then { pd with engine_code := some v }
    else if k = "Tellerstand" then
      match extract_number (String.mk ((pyReplace v "km" "").toList.filter
          (fun c => c ≠ '.'))) with
      | some m => if m ≠ 0 then { pd with mileage_km := some (pyTrunc m) } else pd
      | none => pd
    else pd
  | _ => pd

/-- The price value assigned by `scrape_single_page`: set only when the
price node exists and `extract_number` returns a truthy (non-`None`,
non-zero) value. -/
def finalPriceOf (priceText : Option String) : Option ℚ :=
  match priceText with
  | none => none
  | some t =>
    match extract_number t with
    | some v => if v ≠ 0 then some v else none
    | none => none

/-- The initial `part_data` dict of one `scrape_single_page` item: search
metadata, title and price assignments. -/
def finalBase (license_plate part_name : String) (it : FinalLiItem) :
    FinalPartData :=
  { search_license_plate := license_plate
    search_part_name := part_name
    part_title := it.bold
    price := finalPriceOf it.priceText
    build_year := none
    engine_code := none
    mileage_km := none
    supplier_name := none
    warranty_months := none
    source_url := none
    part_condition := none }

/-- The detail section of the item body (`div.description` rows). -/
def applyDetails (description : Option (List (List String)))
    (pd : FinalPartData) : FinalPartData :=
  match description with
  | none => pd
  | some rows => rows.foldl applyDetail pd

/-- The supplier/warranty section of the item body (`div.pricing`). -/
def applyPricing (pricing : Option FinalPricing) (pd : FinalPartData) :
    FinalPartData :=
  match pricing with
  | none => pd
  | some pr =>
    let pd2 :=
      if strContains pr.text "Aanbieder" then
        match pr.block with
        | some s => { pd with supplier_name := some s }
        | none => pd
      else pd
    match warrantySearch pr.text.toList with
    | some w => { pd2 with warranty_months := some (w : ℤ) }
    | none => pd2

/-- The source-URL section of the item body (`onclick` attribute). -/
def applySourceUrl (onclick : Option String) (pd : FinalPartData) :
    FinalPartData :=
  match onclick with
  | none => pd
  | some oc =>
    if oc ≠ "" && strContains oc hrefMarker then
      match (splitOnChar quoteChar oc.toList).get? 1 with
      | some urlPart =>
        { pd with source_url := some (base_url ++ String.mk urlPart) }
      | none => pd
    else pd

/-- The condition section of the item body (`Gebruikte`/`Nieuwe` in the
title, only when a title was assigned and non-empty). -/
def applyCondition (pd : FinalPartData) : FinalPartData :=
  match pd.part_title with
  | some t =>
    if t ≠ "" then
      if strContains t "Gebruikte" then { pd with part_condition := some "Gebruikt" }
      else if strContains t "Nieuwe" then { pd with part_condition := some "Nieuw" }
      else pd
    else pd
  | none => pd

/-- The `part_data` dict built for one item of `scrape_single_page`: the
source's assignment sections applied in order. -/
def buildFinalPart (license_plate part_name : String) (it : FinalLiItem) :
    FinalPartData :=
  applyCondition (applySourceUrl it.onclick (applyPricing it.pricing
    (applyDetails it.description (finalBase license_plate part_name it))))

/-- The item loop of `scrape_single_page`: a record is appended only when
its price key is present (and, being a Python float, non-zero). -/
def spLoop (license_plate part_name : String) :
    List FinalLiItem → List FinalPartData
  | [] => []
  | it :: rest =>
    let pd := buildFinalPart license_plate part_name it
    if priceTruthy pd.price then pd :: spLoop license_plate part_name rest
    else spLoop license_plate part_name rest

/-- `scrape_single_page(driver, license_plate, part_name)`: empty when the
`ul#result-list` container is missing, otherwise the gated item loop. -/
def scrape_single_page (license_plate part_name : String)
    (soup : Option (List FinalLiItem)) : List FinalPartData :=
  match soup with
  | none => []
  | some items => spLoop license_plate part_name items

/-- One fixture page of the scraper_final pagination loop. -/
structure FixturePageFinal where
  items : Option (List FinalLiItem)
  nextBtn : NextBtn
  deriving Repr

/-- The pagination loop of `scrape_part_prices`: extract the current page;
stop when the next control is absent (exception) or carries the `disabled`
attribute; otherwise click and continue, stopping defensively once the page
number exceeds 100. -/
def paginateFinal (license_plate part_name : String)
    (site : ℕ → FixturePageFinal) (pageNumber : ℕ) :
    List (List FinalPartData) :=
  let pageParts := scrape_single_page license_plate part_name (site pageNumber).items
  match (site pageNumber).nextBtn with
  | .absent => [pageParts]
  | .present _ dis =>
    if dis then [pageParts]
    else if 100 < pageNumber + 1 then [pageParts]
    else pageParts :: paginateFinal license_plate part_name site (pageNumber + 1)
  termination_by 101 - pageNumber
  decreasing_by omega

/- ### Scrape Orchestrator of scraper_new.py (`scrape_parts`) -/

/-- `detect_page_type()`: `results` when the `ul#result-list` element is
found in the current DOM, `category` otherwise. -/
def detect_page_type (resultsListPresent : Bool) : String :=
  if resultsListPresent then "results" else "category"

/-- The `results['search_info']` dict of `scrape_parts` (modeltype is
assigned only after a successful lookup). -/
structure SearchInfoFull where
  license_plate : String
  part_name : String
  scraped_at : String
  modeltype : Option String
  deriving DecidableEq, Repr

/-- The `results` dict of `scrape_parts`: the search info plus the
category-label → records mapping. -/
structure ScrapeResult where
  search_info : SearchInfoFull
  categories : List (String × List PartData)
  deriving DecidableEq, Repr

/-- The ambient behaviour of one scrape session, as `scrape_parts` observes
it: the request, the clock reading, the model-type lookup outcome, the
listing page shown after the lookup (`some` items when `ul#result-list` is
present, which is also the page the direct extraction parses), the DOM the
Category Resolver queries, the fixture site behind the i-th resolved
category URL, and an optional exception raised while processing the i-th
category. -/
structure OrchEnv where
  license_plate : String
  part_name : String
  now : String
  modeltype : Option String
  directItems : Option (List LiItem)
  resolver : ResolverDom
  categorySites : ℕ → ℕ → FixturePageNew
  failAt : Option ℕ

/-- The per-category loop of `scrape_parts` (step 4): for each resolved
(category, url) pair, scrape it and file non-empty results under the
category name; an exception while processing category `i` (`failAt`)
propagates to the surrounding handler, which keeps the entries accumulated
so far. -/
def categoriesLoop (now license_plate part_name : String)
    (sites : ℕ → ℕ → FixturePageNew) (failAt : Option ℕ) :
    ℕ → List (String × String) → List (String × List PartData) →
    List (String × List PartData)
  | _, [], acc => acc
  | i, (category_name, _url) :: rest, acc =>
    if failAt = some i then acc
    else
      let si : SearchInfo :=
        { license_plate := some license_plate, part_name := some part_name,
          category := none }
      let parts := scrape_category_results now category_name si (sites i)
      let acc2 := if parts.isEmpty then acc else dictUpd acc category_name parts
      categoriesLoop now license_plate part_name sites failAt (i + 1) rest acc2

/-- `scrape_parts(license_plate, part_name)`: the end-to-end orchestrator.
The result value is initialized with an empty categories mapping and is
returned on every path — model-type failure, direct extraction, no category
match, and an exception caught by the outer handler. -/
def scrape_parts (env : OrchEnv) : ScrapeResult :=
  let results0 : ScrapeResult :=
    { search_info :=
        { license_plate := env.license_plate, part_name := env.part_name,
          scraped_at := env.now, modeltype := none }
      categories := [] }
  if !truthyOptStr env.modeltype then results0
  else
    let results1 :=
      { results0 with
          search_info := { results0.search_info with modeltype := env.modeltype } }
    if detect_page_type env.directItems.isSome = "results" then
      let si : SearchInfo :=
        { license_plate := some env.license_plate,
          part_name := some env.part_name, category := none }
      let parts := extract_part_data env.now env.directItems si
      { results1 with categories := [("Direct Results", parts)] }
    else
      let category_urls := (find_category_urls env.resolver env.part_name).1
      if category_urls.isEmpty then results1
      else
        { results1 with
            categories :=
              categoriesLoop env.now env.license_plate env.part_name
                env.categorySites env.failAt 0 category_urls [] }

/- ### Helper lemmas -/

lemma truthyOptStr_iff (o : Option String) :
    truthyOptStr o = true ↔ ∃ t, o = some t ∧ t ≠ "" := by
  cases o <;> simp [truthyOptStr]

lemma epLoop_eq (now : String) (si : SearchInfo) (items : List LiItem) :
    epLoop now si items =
      (items.filter (fun it => truthyOptStr (titleOf it.description))).map
        (buildPart now si) := by
  induction items with
  | nil => rfl
  | cons it rest ih =>
    have hti : (buildPart now si it).title = titleOf it.description := rfl
    by_cases h : truthyOptStr (titleOf it.description) = true
    · simp [epLoop, hti, h, ih]
    · simp [epLoop, hti, h, ih]

lemma mem_epLoop {now : String} {si : SearchInfo} {items : List LiItem}
    {p : PartData} (hp : p ∈ epLoop now si items) :
    ∃ it ∈ items, p = buildPart now si it ∧
      truthyOptStr (titleOf it.description) = true := by
  rw [epLoop_eq] at hp
  rcases List.mem_map.mp hp with ⟨it, hit, rfl⟩
  rcases List.mem_filter.mp hit with ⟨hmem, hcond⟩
  exact ⟨it, hmem, rfl, hcond⟩

lemma mem_extract_part_data {now : String} {si : SearchInfo}
    {soup : Option (List LiItem)} {p : PartData}
    (hp : p ∈ extract_part_data now soup si) :
    ∃ it, p = buildPart now si it ∧
      truthyOptStr (titleOf it.description) = true := by
  cases soup with
  | none => simp [extract_part_data] at hp
  | some items =>
    rcases mem_epLoop hp with ⟨it, _, hpd, hcond⟩
    exact ⟨it, hpd, hcond⟩

lemma spLoop_eq (lp pn : String) (items : List FinalLiItem) :
    spLoop lp pn items =
      (items.filter (fun it => priceTruthy (buildFinalPart lp pn it).price)).map
        (buildFinalPart lp pn) := by
  induction items with
  | nil => rfl
  | cons it rest ih =>
    by_cases h : priceTruthy (buildFinalPart lp pn it).price = true
    · simp [spLoop, h, ih]
    · simp [spLoop, h, ih]

lemma priceTruthy_iff (o : Option ℚ) :
    priceTruthy o = true ↔ ∃ v, o = some v ∧ v ≠ 0 := by
  cases o <;> simp [priceTruthy]

lemma applyDetail_price (pd : FinalPartData) (spans : List String) :
    (applyDetail pd spans).price = pd.price := by
  rcases spans with _ | ⟨k, _ | ⟨v, r⟩⟩
  · rfl
  · rfl
  · unfold applyDetail
    repeat' split
    all_goals rfl

lemma applyDetails_price (d : Option (List (List String)))
    (pd : FinalPartData) : (applyDetails d pd).price = pd.price := by
  cases d with
  | none => rfl
  | some rows =>
    show (rows.foldl applyDetail pd).price = pd.price
    induction rows generalizing pd with
    | nil => rfl
    | cons r rest ih =>
      rw [List.foldl_cons, ih, applyDetail_price]

lemma applyPricing_price (pr : Option FinalPricing) (pd : FinalPartData) :
    (applyPricing pr pd).price = pd.price := by
  unfold applyPricing
  repeat' split
  all_goals rfl

lemma applySourceUrl_price (oc : Option String) (pd : FinalPartData) :
    (applySourceUrl oc pd).price = pd.price := by
  unfold applySourceUrl
  repeat' split
  all_goals rfl

lemma applyCondition_price (pd : FinalPartData) :
    (applyCondition pd).price = pd.price := by
  unfold applyCondition
  repeat' split
  all_goals rfl

lemma buildFinalPart_price (lp pn : String) (it : FinalLiItem) :
    (buildFinalPart lp pn it).price = finalPriceOf it.priceText := by
  unfold buildFinalPart
  rw [applyCondition_price, applySourceUrl_price, applyPricing_price,
    applyDetails_price]
  rfl

/- ### C1 -/

/-- C1: `extract_part_data` emits a record for an item if and only if a
non-empty title was extracted for it — the output is exactly the per-item
records of the items with a truthy extracted title, and every emitted record
carries a non-empty title. -/
theorem extract_part_data_title_gate (now : String) (si : SearchInfo)
    (soup : Option (List LiItem)) :
    (∀ p ∈ extract_part_data now soup si, ∃ t, p.title = some t ∧ t ≠ "") ∧
    (∀ items, soup = some items →
      extract_part_data now soup si =
        (items.filter (fun it => truthyOptStr (titleOf it.description))).map
          (buildPart now si)) := by
  constructor
  · intro p hp
    rcases mem_extract_part_data hp with ⟨it, rfl, hcond⟩
    exact (truthyOptStr_iff _).mp hcond
  · rintro items rfl
    exact epLoop_eq now si items

/-- C1 witness: a two-item fixture (one titled, one with the description
block missing) yields exactly the titled item's record. -/
theorem extract_part_data_title_gate_witness :
    (∀ p ∈ extract_part_data "T"
        (some [⟨some ⟨some "Remschijf links"⟩, none, none, [], none, none⟩,
               ⟨none, some "€ 25", none, [], none, none⟩])
        ⟨none, none, none⟩,
      ∃ t, p.title = some t ∧ t ≠ "") ∧
    extract_part_data "T"
        (some [⟨some ⟨some "Remschijf links"⟩, none, none, [], none, none⟩,
               ⟨none, some "€ 25", none, [], none, none⟩])
        ⟨none, none, none⟩ =
      (([⟨some ⟨some "Remschijf links"⟩, none, none, [], none, none⟩,
         ⟨none, some "€ 25", none, [], none, none⟩] :
          List LiItem).filter
        (fun it => truthyOptStr (titleOf it.description))).map
        (buildPart "T" ⟨none, none, none⟩) :=
  ⟨(extract_part_data_title_gate "T" ⟨none, none, none⟩ _).1,
   (extract_part_data_title_gate "T" ⟨none, none, none⟩ _).2 _ rfl⟩

/- ### C2 -/

/-- C2: price extraction of `extract_part_data` — an on-request phrase
(case-insensitively) yields the sentinel, the euro pattern `€ 123,45` yields
the decimal 123.45 with the comma normalized, a missing price node or a text
matching neither yields `N/A`, and the price field is present on every
emitted record. -/
theorem extract_part_data_price_spec :
    (∀ t, strContains (pyToLower t) "prijs op aanvraag" = true →
      priceVal (some t) = .onRequest) ∧
    priceVal (some "€ 123,45") = .num (2469 / 20) ∧
    priceVal none = .na ∧
    (∀ t, strContains (pyToLower t) "prijs op aanvraag" = false →
      euroSearch t.toList = none → priceVal (some t) = .na) ∧
    (∀ now si soup p, p ∈ extract_part_data now soup si →
      ∃ v, p.price = some v) := by
  refine ⟨?_, ?_, rfl, ?_, ?_⟩
  · intro t h
    simp [priceVal, h]
  · have h0 : priceVal (some "€ 123,45") =
        .num (pyFloat ['1', '2', '3', '.', '4', '5']) := rfl
    have h3 : pyFloat ['1', '2', '3', '.', '4', '5'] =
        (digitsVal ['1', '2', '3'] : ℚ) +
          (digitsVal ['4', '5'] : ℚ) / (10 : ℚ) ^ 2 := rfl
    have h4 : digitsVal ['1', '2', '3'] = 123 := by decide
    have h5 : digitsVal ['4', '5'] = 45 := by decide
    rw [h0, h3, h4, h5]
    exact congrArg PriceVal.num (by norm_num)
  · intro t h1 h2
    have h2a : euroSearch t.data = none := h2
    simp [priceVal, h1, h2a]
  · intro now si soup p hp
    rcases mem_extract_part_data hp with ⟨it, rfl, -⟩
    exact ⟨priceVal it.priceText, rfl⟩

/-- C2 witness: the three price shapes at concrete inputs, and a concrete
emitted record carrying a price. -/
theorem extract_part_data_price_spec_witness :
    priceVal (some "Prijs op aanvraag") = .onRequest ∧
    priceVal (some "geen prijsinfo") = .na ∧
    (∃ v, (buildPart "T" ⟨none, none, none⟩
        ⟨some ⟨some "Deur"⟩, none, none, [], none, none⟩).price =
          some v) :=
  ⟨extract_part_data_price_spec.1 "Prijs op aanvraag" (by decide),
   extract_part_data_price_spec.2.2.2.1 "geen prijsinfo" (by decide) (by decide),
   extract_part_data_price_spec.2.2.2.2 "T" ⟨none, none, none⟩
     (some [⟨some ⟨some "Deur"⟩, none, none, [], none, none⟩])
     (buildPart "T" ⟨none, none, none⟩
       ⟨some ⟨some "Deur"⟩, none, none, [], none, none⟩)
     (by decide)⟩

/- ### C9 -/

/-- C9: the fallback model resolver returns the table's mapped value for
every plate whose normalized form is a key of the static table, and the
default `8601` for every other plate. -/
theorem get_modeltype_fallback_table (lp : String) :
    (∀ m, lookupMap modeltype_map (cleanPlate lp) = some m →
      get_modeltype lp = m) ∧
    (lookupMap modeltype_map (cleanPlate lp) = none →
      get_modeltype lp = "8601") := by
  constructor
  · intro m h
    simp [get_modeltype, h]
  · intro h
    simp [get_modeltype, h]

/-- C9 witness: a mapped plate (in lowercase, with hyphens) resolves to its
table value, an unmapped plate to the default. -/
theorem get_modeltype_fallback_table_witness :
    get_modeltype "27-xh-vx" = "8601" ∧ get_modeltype "ZZ-99-ZZ" = "8601" :=
  ⟨(get_modeltype_fallback_table "27-xh-vx").1 "8601" (by decide),
   (get_modeltype_fallback_table "ZZ-99-ZZ").2 (by decide)⟩

/- ### C10 -/

/-- C10: `scrape_single_page` appends an item only when its extracted price
is truthy — every emitted record carries a non-zero numeric price (titles
play no role in the gate), the output is exactly the records of the items
passing the price gate, and an item whose price text parses to exactly 0
fails the gate. -/
theorem scrape_single_page_price_gate :
    (∀ lp pn soup p, p ∈ scrape_single_page lp pn soup →
      ∃ v, p.price = some v ∧ v ≠ 0) ∧
    (∀ lp pn items,
      scrape_single_page lp pn (some items) =
        (items.filter
          (fun it => priceTruthy (buildFinalPart lp pn it).price)).map
          (buildFinalPart lp pn)) ∧
    (∀ lp pn (it : FinalLiItem) t, it.priceText = some t →
      extract_number t = some 0 →
      priceTruthy (buildFinalPart lp pn it).price = false) := by
  refine ⟨?_, ?_, ?_⟩
  · intro lp pn soup p hp
    cases soup with
    | none => simp [scrape_single_page] at hp
    | some items =>
      simp only [scrape_single_page] at hp
      rw [spLoop_eq] at hp
      rcases List.mem_map.mp hp with ⟨it, hit, rfl⟩
      rcases List.mem_filter.mp hit with ⟨-, hcond⟩
      exact (priceTruthy_iff _).mp hcond
  · intro lp pn items
    exact spLoop_eq lp pn items
  · intro lp pn it t ht h0
    have hp2 : (buildFinalPart lp pn it).price = none := by
      rw [buildFinalPart_price]
      simp [finalPriceOf, ht, h0]
    simp [priceTruthy, hp2]

/-- C10 witness: a titled zero-price item is dropped while an untitled
priced item is kept, with its non-zero price. -/
theorem scrape_single_page_price_gate_witness :
    (∀ p ∈ scrape_single_page "27XHVX" "Remschijf"
        (some [⟨some "Gebruikte Remschijf", some "€ 0", none, none, none⟩,
               ⟨none, some "€ 25,50", none, none, none⟩]),
      ∃ v, p.price = some v ∧ v ≠ 0) ∧
    scrape_single_page "27XHVX" "Remschijf"
        (some [⟨some "Gebruikte Remschijf", some "€ 0", none, none, none⟩,
               ⟨none, some "€ 25,50", none, none, none⟩]) =
      (([⟨some "Gebruikte Remschijf", some "€ 0", none, none, none⟩,
         ⟨none, some "€ 25,50", none, none, none⟩] :
          List FinalLiItem).filter
        (fun it => priceTruthy (buildFinalPart "27XHVX" "Remschijf" it).price)).map
        (buildFinalPart "27XHVX" "Remschijf") ∧
    priceTruthy (buildFinalPart "27XHVX" "Remschijf"
        ⟨some "Gebruikte Remschijf", some "€ 0", none, none, none⟩).price =
      false :=
  ⟨scrape_single_page_price_gate.1 "27XHVX" "Remschijf" _,
   scrape_single_page_price_gate.2.1 "27XHVX" "Remschijf" _,
   scrape_single_page_price_gate.2.2 "27XHVX" "Remschijf"
     ⟨some "Gebruikte Remschijf", some "€ 0", none, none, none⟩ "€ 0" rfl
     (by
       have h1 : extract_number "€ 0" =
           some ((digitsVal ['0'] : ℚ) +
             (digitsVal ([] : List Char) : ℚ) /
               (10 : ℚ) ^ ([] : List Char).length) := rfl
       have h4 : digitsVal ['0'] = 0 := by decide
       have h5 : digitsVal ([] : List Char) = 0 := by decide
       rw [h1, h4, h5]
       simp)⟩

/- ### C3 -/

lemma firstNonEmpty_spec {α : Type} :
    ∀ (ls : List (List α)) (i : ℕ) (l : List α), ls.get? i = some l →
      l ≠ [] → (∀ j, j < i → ls.get? j = some []) → firstNonEmpty ls = l := by
  intro ls
  induction ls with
  | nil => intro i l h; simp at h
  | cons hd tl ih =>
    intro i l hget hne hbefore
    cases i with
    | zero =>
      simp only [List.get?] at hget
      cases hget
      simp [firstNonEmpty, List.isEmpty_iff, hne]
    | succ i2 =>
      have hhd : hd = [] := by
        have := hbefore 0 (Nat.succ_pos i2)
        simpa using this
      subst hhd
      simp only [firstNonEmpty, List.isEmpty_nil, if_true]
      exact ih i2 l hget hne (fun j hj => by
        have := hbefore (j + 1) (Nat.succ_lt_succ hj)
        simpa using this)

/-- C3: the Category Resolver tries its five match strategies in source
order and the first one producing a non-empty element list determines the
output — whenever every strategy before index `i` matches nothing and
strategy `i` matches, the result is exactly strategy `i`'s matches
post-processed, and no later strategy (in particular the broad fallback)
contributes. -/
theorem find_category_urls_first_strategy (dom : ResolverDom)
    (part_name : String) (i : ℕ) (l : List Anchor)
    (hc : dom.containerAppears = true)
    (hget : (patternMatches dom (pyToLower part_name)).get? i = some l)
    (hne : l ≠ [])
    (hbefore : ∀ j, j < i →
      (patternMatches dom (pyToLower part_name)).get? j = some []) :
    find_category_urls dom part_name = (l.filterMap linkEntry, []) := by
  have hfirst : firstNonEmpty (patternMatches dom (pyToLower part_name)) = l :=
    firstNonEmpty_spec _ i l hget hne hbefore
  unfold find_category_urls
  rw [hc]
  simp only [Bool.not_true, Bool.false_eq_true, if_false, hfirst]
  rw [if_neg (by simpa [List.isEmpty_iff] using hne)]

/-- The C3 witness fixture: the container holds one anchor whose title only
matches the part term after its Dutch plural suffix `en` is stripped, while
an anchor outside the container matches the full term (so the broad
fallback, were it consulted, would return a different set). -/
def c3dom : ResolverDom :=
  { containerAppears := true
    containerAnchors := [⟨some "Velg", none, "Velg", some "/onderdeel/velg/"⟩]
    outsideAnchors := [⟨some "Velgen promo", none, "", some "/onderdeel/velgen/"⟩] }

/-- C3 witness: on the fixture where only the fourth (`en`-stripped)
strategy matches, the resolver returns that strategy's processed matches,
which differ from the broad fallback's. -/
theorem find_category_urls_first_strategy_witness :
    find_category_urls c3dom "Velgen" =
      ((xpTitleMatch (pyRstripSet (pyToLower "Velgen") ['e', 'n'])
        c3dom.containerAnchors).filterMap linkEntry, []) ∧
    (xpTitleMatch (pyRstripSet (pyToLower "Velgen") ['e', 'n'])
        c3dom.containerAnchors).filterMap linkEntry ≠
      (xpTitleMatch (pyToLower "Velgen")
        (c3dom.containerAnchors ++ c3dom.outsideAnchors)).filterMap linkEntry :=
  ⟨find_category_urls_first_strategy c3dom "Velgen" 3
      (xpTitleMatch (pyRstripSet (pyToLower "Velgen") ['e', 'n'])
        c3dom.containerAnchors)
      rfl (by decide) (by decide)
      (fun j hj => by
        interval_cases j <;> decide),
   by decide⟩

/- ### C7 -/

/-- C7: Diagnostic Capture in the Category Resolver — a stage-1 container
timeout returns empty with exactly one capture tagged
`stage1_container_timeout`; no strategy matching returns empty with exactly
one capture tagged `stage2_no_matches`; the two tags differ; and a
successful match triggers no capture at all. -/
theorem find_category_urls_diagnostics (dom : ResolverDom)
    (part_name : String) :
    (dom.containerAppears = false →
      find_category_urls dom part_name = ([], ["stage1_container_timeout"])) ∧
    (dom.containerAppears = true →
      firstNonEmpty (patternMatches dom (pyToLower part_name)) = [] →
      find_category_urls dom part_name = ([], ["stage2_no_matches"])) ∧
    (dom.containerAppears = true →
      firstNonEmpty (patternMatches dom (pyToLower part_name)) ≠ [] →
      (find_category_urls dom part_name).2 = []) ∧
    ("stage1_container_timeout" : String) ≠ "stage2_no_matches" := by
  refine ⟨?_, ?_, ?_, by decide⟩
  · intro hc
    unfold find_category_urls
    rw [hc]
    rfl
  · intro hc hempty
    unfold find_category_urls
    rw [hc]
    simp [hempty]
  · intro hc hne
    unfold find_category_urls
    rw [hc]
    simp only [Bool.not_true, Bool.false_eq_true, if_false]
    rw [if_neg (by simpa [List.isEmpty_iff] using hne)]

/-- C7 witness: the three resolver outcomes at concrete fixtures — a
container that never appears, a container with no matching anchor, and a
matching anchor. -/
theorem find_category_urls_diagnostics_witness :
    find_category_urls ⟨false, [], []⟩ "Velgen" =
      ([], ["stage1_container_timeout"]) ∧
    find_category_urls ⟨true, [], []⟩ "Velgen" =
      ([], ["stage2_no_matches"]) ∧
    (find_category_urls ⟨true,
      [⟨some "Velgen", none, "Velgen", some "/onderdeel/velgen/"⟩], []⟩
      "Velgen").2 = [] :=
  ⟨(find_category_urls_diagnostics ⟨false, [], []⟩ "Velgen").1 rfl,
   (find_category_urls_diagnostics ⟨true, [], []⟩ "Velgen").2.1 rfl (by decide),
   (find_category_urls_diagnostics ⟨true,
      [⟨some "Velgen", none, "Velgen", some "/onderdeel/velgen/"⟩], []⟩
      "Velgen").2.2.1 rfl (by decide)⟩

/- ### C5 -/

/-- The stopping condition of the scraper_new pagination loop: next control
absent, not enabled, or carrying the `disabled` attribute. -/
def nextStopsNew : NextBtn → Bool
  | .absent => true
  | .present enabled dis => !enabled || dis

/-- The stopping condition of the scraper_final pagination loop: next
control absent or carrying the `disabled` attribute. -/
def nextStopsFinal : NextBtn → Bool
  | .absent => true
  | .present _ dis => dis

lemma paginateNew_stop (now : String) (si : SearchInfo)
    (site : ℕ → FixturePageNew) (p : ℕ)
    (h : nextStopsNew ((site p).nextBtn) = true) :
    paginateNew now si site p = [extract_part_data now (site p).items si] := by
  conv_lhs => rw [paginateNew]
  cases hb : (site p).nextBtn with
  | absent => rfl
  | present e d =>
    rw [hb] at h
    simp only [nextStopsNew] at h
    simp [h]

lemma paginateNew_ceiling (now : String) (si : SearchInfo)
    (site : ℕ → FixturePageNew) (p : ℕ) (e d : Bool)
    (hb : (site p).nextBtn = .present e d) (h : 50 < p + 1) :
    paginateNew now si site p = [extract_part_data now (site p).items si] := by
  conv_lhs => rw [paginateNew]
  rw [hb]
  by_cases hstop : (!e || d) = true
  · simp [hstop]
  · simp [hstop, h]

lemma paginateNew_advance (now : String) (si : SearchInfo)
    (site : ℕ → FixturePageNew) (p : ℕ)
    (hb : (site p).nextBtn = .present true false) (h : p + 1 ≤ 50) :
    paginateNew now si site p =
      extract_part_data now (site p).items si :: paginateNew now si site (p + 1) := by
  conv_lhs => rw [paginateNew]
  rw [hb]
  simp [Nat.not_lt.mpr h]

lemma paginateNew_length_run (now : String) (si : SearchInfo)
    (site : ℕ → FixturePageNew) :
    ∀ d p N, 1 ≤ p → p ≤ N → N ≤ 50 → N - p = d →
      (∀ k, p ≤ k → k < N → (site k).nextBtn = .present true false) →
      nextStopsNew ((site N).nextBtn) = true →
      (paginateNew now si site p).length = N - p + 1 := by
  intro d
  induction d with
  | zero =>
    intro p N h1 h2 h3 hd hmid hstop
    have hpN : p = N := by omega
    subst hpN
    rw [paginateNew_stop now si site p hstop]
    simp
  | succ d ih =>
    intro p N h1 h2 h3 hd hmid hstop
    have hpN : p < N := by omega
    rw [paginateNew_advance now si site p (hmid p le_rfl hpN) (by omega)]
    simp only [List.length_cons]
    have hrec := ih (p + 1) N (by omega) (by omega) h3 (by omega)
      (fun k hk1 hk2 => hmid k (by omega) hk2) hstop
    omega

lemma paginateNew_length_le (now : String) (si : SearchInfo)
    (site : ℕ → FixturePageNew) :
    ∀ d p, 51 - p = d → 1 ≤ d → (paginateNew now si site p).length ≤ d := by
  intro d
  induction d with
  | zero => intro p h1 h2; omega
  | succ d ih =>
    intro p hd h1
    by_cases hstop : nextStopsNew ((site p).nextBtn) = true
    · rw [paginateNew_stop now si site p hstop]
      simp
    · have hb : (site p).nextBtn = .present true false := by
        cases hb2 : (site p).nextBtn with
        | absent => rw [hb2] at hstop; simp [nextStopsNew] at hstop
        | present e dis =>
          rw [hb2] at hstop
          simp only [nextStopsNew, Bool.or_eq_true, Bool.not_eq_true] at hstop
          push_neg at hstop
          rcases hstop with ⟨he, hdis⟩
          cases e
          · simp at he
          · cases dis
            · rfl
            · simp at hdis
      by_cases hc : p + 1 ≤ 50
      · rw [paginateNew_advance now si site p hb hc]
        simp only [List.length_cons]
        have hrec := ih (p + 1) (by omega) (by omega)
        omega
      · rw [paginateNew_ceiling now si site p true false hb (by omega)]
        simp

lemma paginateFinal_stop (lp pn : String) (site : ℕ → FixturePageFinal)
    (p : ℕ) (h : nextStopsFinal ((site p).nextBtn) = true) :
    paginateFinal lp pn site p =
      [scrape_single_page lp pn (site p).items] := by
  conv_lhs => rw [paginateFinal]
  cases hb : (site p).nextBtn with
  | absent => rfl
  | present e d =>
    rw [hb] at h
    simp only [nextStopsFinal] at h
    simp [h]

lemma paginateFinal_ceiling (lp pn : String) (site : ℕ → FixturePageFinal)
    (p : ℕ) (e d : Bool) (hb : (site p).nextBtn = .present e d)
    (h : 100 < p + 1) :
    paginateFinal lp pn site p =
      [scrape_single_page lp pn (site p).items] := by
  conv_lhs => rw [paginateFinal]
  rw [hb]
  by_cases hstop : d = true
  · simp [hstop]
  · simp [hstop, h]

lemma paginateFinal_advance (lp pn : String) (site : ℕ → FixturePageFinal)
    (p : ℕ) (e : Bool) (hb : (site p).nextBtn = .present e false)
    (h : p + 1 ≤ 100) :
    paginateFinal lp pn site p =
      scrape_single_page lp pn (site p).items ::
        paginateFinal lp pn site (p + 1) := by
  conv_lhs => rw [paginateFinal]
  rw [hb]
  simp [Nat.not_lt.mpr h]

lemma paginateFinal_length_run (lp pn : String)
    (site : ℕ → FixturePageFinal) :
    ∀ d p N, 1 ≤ p → p ≤ N → N ≤ 100 → N - p = d →
      (∀ k, p ≤ k → k < N → (site k).nextBtn = .present true false) →
      nextStopsFinal ((site N).nextBtn) = true →
      (paginateFinal lp pn site p).length = N - p + 1 := by
  intro d
  induction d with
  | zero =>
    intro p N h1 h2 h3 hd hmid hstop
    have hpN : p = N := by omega
    subst hpN
    rw [paginateFinal_stop lp pn site p hstop]
    simp
  | succ d ih =>
    intro p N h1 h2 h3 hd hmid hstop
    have hpN : p < N := by omega
    rw [paginateFinal_advance lp pn site p true (hmid p le_rfl hpN) (by omega)]
    simp only [List.length_cons]
    have hrec := ih (p + 1) N (by omega) (by omega) h3 (by omega)
      (fun k hk1 hk2 => hmid k (by omega) hk2) hstop
    omega

lemma paginateFinal_length_le (lp pn : String)
    (site : ℕ → FixturePageFinal) :
    ∀ d p, 101 - p = d → 1 ≤ d → (paginateFinal lp pn site p).length ≤ d := by
  intro d
  induction d with
  | zero => intro p h1 h2; omega
  | succ d ih =>
    intro p hd h1
    by_cases hstop : nextStopsFinal ((site p).nextBtn) = true
    · rw [paginateFinal_stop lp pn site p hstop]
      simp
    · rcases hb0 : (site p).nextBtn with _ | ⟨e, dis⟩
      · rw [hb0] at hstop; simp [nextStopsFinal] at hstop
      · have hdis : dis = false := by
          rw [hb0] at hstop
          simp only [nextStopsFinal] at hstop
          exact Bool.not_eq_true dis ▸ (by simpa using hstop)
        subst hdis
        by_cases hc : p + 1 ≤ 100
        · rw [paginateFinal_advance lp pn site p e hb0 hc]
          simp only [List.length_cons]
          have hrec := ih (p + 1) (by omega) (by omega)
          omega
        · rw [paginateFinal_ceiling lp pn site p e false hb0 (by omega)]
          simp

/-- C5: the pagination loops always terminate with a normal stop — on a
fixture whose "next" control is live on the first `N - 1` pages and
disabled (or absent) on page `N`, with `N` below the ceiling, the loop
yields exactly `N` page-record-sequences; and on every fixture the hard
page-count ceiling (50 for `scrape_category_results`, 100 for
`scrape_part_prices`) bounds the number of extracted pages. -/
theorem pagination_terminates :
    (∀ now si site N, 1 ≤ N → N ≤ 50 →
      (∀ k, 1 ≤ k → k < N → (site k).nextBtn = NextBtn.present true false) →
      nextStopsNew ((site N).nextBtn) = true →
      (paginateNew now si site 1).length = N) ∧
    (∀ now si site, (paginateNew now si site 1).length ≤ 50) ∧
    (∀ lp pn site N, 1 ≤ N → N ≤ 100 →
      (∀ k, 1 ≤ k → k < N → (site k).nextBtn = NextBtn.present true false) →
      nextStopsFinal ((site N).nextBtn) = true →
      (paginateFinal lp pn site 1).length = N) ∧
    (∀ lp pn site, (paginateFinal lp pn site 1).length ≤ 100) := by
  refine ⟨?_, ?_, ?_, ?_⟩
  · intro now si site N h1 h2 hmid hstop
    have := paginateNew_length_run now si site (N - 1) 1 N le_rfl h1 h2
      (by omega) (fun k hk1 hk2 => hmid k hk1 hk2) hstop
    omega
  · intro now si site
    have := paginateNew_length_le now si site 50 1 (by omega) (by omega)
    omega
  · intro lp pn site N h1 h2 hmid hstop
    have := paginateFinal_length_run lp pn site (N - 1) 1 N le_rfl h1 h2
      (by omega) (fun k hk1 hk2 => hmid k hk1 hk2) hstop
    omega
  · intro lp pn site
    have := paginateFinal_length_le lp pn site 100 1 (by omega) (by omega)
    omega

/-- C5 witness fixture for the scraper_new loop: three pages, the next
control disabled on page 3. -/
def c5siteNew (k : ℕ) : FixturePageNew :=
  { items := none
    nextBtn := if k < 3 then .present true false else .present false true }

/-- C5 witness fixture for the scraper_final loop: two pages, the next
control absent on page 2. -/
def c5siteFinal (k : ℕ) : FixturePageFinal :=
  { items := none
    nextBtn := if k < 2 then .present true false else .absent }

/-- C5 witness: the three-page fixture yields exactly three page sequences
under the scraper_new loop, the two-page fixture exactly two under the
scraper_final loop, and both ceilings hold on these fixtures. -/
theorem pagination_terminates_witness :
    (paginateNew "T" ⟨none, none, none⟩ c5siteNew 1).length = 3 ∧
    (paginateNew "T" ⟨none, none, none⟩ c5siteNew 1).length ≤ 50 ∧
    (paginateFinal "27XHVX" "Remschijf" c5siteFinal 1).length = 2 ∧
    (paginateFinal "27XHVX" "Remschijf" c5siteFinal 1).length ≤ 100 :=
  ⟨pagination_terminates.1 "T" ⟨none, none, none⟩ c5siteNew 3 (by decide)
      (by decide)
      (fun k hk1 hk2 => by
        have hk : k = 1 ∨ k = 2 := by omega
        rcases hk with hk | hk <;> subst hk <;> rfl)
      (by decide),
   pagination_terminates.2.1 "T" ⟨none, none, none⟩ c5siteNew,
   pagination_terminates.2.2.1 "27XHVX" "Remschijf" c5siteFinal 2 (by decide)
      (by decide)
      (fun k hk1 hk2 => by
        have hk : k = 1 := by omega
        subst hk; rfl)
      (by decide),
   pagination_terminates.2.2.2 "27XHVX" "Remschijf" c5siteFinal⟩

/- ### C4 -/

/-- Erase the clock-dependent `scraped_at` field of a record. -/
def eraseScrapedAt (p : PartData) : PartData :=
  { p with scraped_at := "" }

lemma epLoop_map_erase (t1 t2 : String) (si : SearchInfo) :
    ∀ items, (epLoop t1 si items).map eraseScrapedAt =
      (epLoop t2 si items).map eraseScrapedAt := by
  intro items
  induction items with
  | nil => rfl
  | cons it rest ih =>
    have h1 : (buildPart t1 si it).title = titleOf it.description := rfl
    have h2 : (buildPart t2 si it).title = titleOf it.description := rfl
    by_cases h : truthyOptStr (titleOf it.description) = true
    · simp only [epLoop, h1, h2, h, if_true, List.map_cons, ih]
      have hhead : eraseScrapedAt (buildPart t1 si it) =
          eraseScrapedAt (buildPart t2 si it) := rfl
      rw [hhead]
    · simp only [epLoop, h1, h2, h, Bool.false_eq_true, if_false, ih]

/-- C4 fixture: one titled result item. -/
def c4item : LiItem :=
  ⟨some ⟨some "Aandrijfas links-voor"⟩, none, none, [], none, none⟩

/-- C4 counterexample: `extract_part_data` reads the clock
(`time.strftime`) for every record's `scraped_at` field, so two runs on the
same fixture markup and search info at different clock readings produce
different record sequences — the extractor is not independent of ambient
state and its output is not byte-for-byte reproducible. -/
theorem extract_part_data_not_time_independent :
    extract_part_data "2024-01-01 10:00:00" (some [c4item]) ⟨none, none, none⟩ ≠
      extract_part_data "2024-01-01 10:00:01" (some [c4item])
        ⟨none, none, none⟩ := by
  decide

/-- C4 (amended): `extract_part_data` is deterministic given markup, context
and the clock reading — two runs at the same timestamp coincide exactly, and
two runs at different timestamps coincide after erasing the `scraped_at`
field, which is the only clock-dependent output. -/
theorem extract_part_data_deterministic_mod_time (t1 t2 : String)
    (soup : Option (List LiItem)) (si : SearchInfo) :
    ((extract_part_data t1 soup si).map eraseScrapedAt =
      (extract_part_data t2 soup si).map eraseScrapedAt) ∧
    (t1 = t2 → extract_part_data t1 soup si = extract_part_data t2 soup si) := by
  constructor
  · cases soup with
    | none => rfl
    | some items => exact epLoop_map_erase t1 t2 si items
  · rintro rfl
    rfl

/-- C4 witness: on the concrete fixture, runs at two timestamps agree up to
`scraped_at`, and two runs at one timestamp agree exactly. -/
theorem extract_part_data_deterministic_mod_time_witness :
    ((extract_part_data "2024-01-01 10:00:00" (some [c4item])
        ⟨none, none, none⟩).map eraseScrapedAt =
      (extract_part_data "2024-01-01 10:00:01" (some [c4item])
        ⟨none, none, none⟩).map eraseScrapedAt) ∧
    extract_part_data "2024-01-01 10:00:00" (some [c4item])
        ⟨none, none, none⟩ =
      extract_part_data "2024-01-01 10:00:00" (some [c4item])
        ⟨none, none, none⟩ :=
  ⟨(extract_part_data_deterministic_mod_time "2024-01-01 10:00:00"
      "2024-01-01 10:00:01" (some [c4item]) ⟨none, none, none⟩).1,
   (extract_part_data_deterministic_mod_time "2024-01-01 10:00:00"
      "2024-01-01 10:00:00" (some [c4item]) ⟨none, none, none⟩).2 rfl⟩

/- ### C6 and C8: orchestrator lemmas -/

lemma mem_extract_category {now : String} {si : SearchInfo}
    {soup : Option (List LiItem)} {p : PartData}
    (hp : p ∈ extract_part_data now soup si) : p.category = si.category := by
  rcases mem_extract_part_data hp with ⟨it, rfl, -⟩
  rfl

lemma paginateNew_mem_category (now : String) (si : SearchInfo)
    (site : ℕ → FixturePageNew) :
    ∀ d pg, 51 - pg ≤ d → ∀ page ∈ paginateNew now si site pg,
      ∀ p ∈ page, p.category = si.category := by
  intro d
  induction d with
  | zero =>
    intro pg hle page hpage p hp
    have hpg : 51 ≤ pg := by omega
    rcases hb : (site pg).nextBtn with _ | ⟨e, dis⟩
    · rw [paginateNew_stop now si site pg (by rw [hb]; rfl)] at hpage
      rcases List.mem_singleton.mp hpage with rfl
      exact mem_extract_category hp
    · by_cases hstop : nextStopsNew ((site pg).nextBtn) = true
      · rw [paginateNew_stop now si site pg hstop] at hpage
        rcases List.mem_singleton.mp hpage with rfl
        exact mem_extract_category hp
      · rw [paginateNew_ceiling now si site pg e dis hb (by omega)] at hpage
        rcases List.mem_singleton.mp hpage with rfl
        exact mem_extract_category hp
  | succ d ih =>
    intro pg hle page hpage p hp
    by_cases hstop : nextStopsNew ((site pg).nextBtn) = true
    · rw [paginateNew_stop now si site pg hstop] at hpage
      rcases List.mem_singleton.mp hpage with rfl
      exact mem_extract_category hp
    · rcases hb : (site pg).nextBtn with _ | ⟨e, dis⟩
      · rw [hb] at hstop; simp [nextStopsNew] at hstop
      · have hed : e = true ∧ dis = false := by
          rw [hb] at hstop
          simp only [nextStopsNew, Bool.or_eq_true, Bool.not_eq_true] at hstop
          push_neg at hstop
          exact ⟨by simpa using hstop.1, by simpa using hstop.2⟩
        rcases hed with ⟨rfl, rfl⟩
        by_cases hc : pg + 1 ≤ 50
        · rw [paginateNew_advance now si site pg hb hc] at hpage
          rcases List.mem_cons.mp hpage with rfl | htail
          · exact mem_extract_category hp
          · exact ih (pg + 1) (by omega) page htail p hp
        · rw [paginateNew_ceiling now si site pg true false hb (by omega)] at hpage
          rcases List.mem_singleton.mp hpage with rfl
          exact mem_extract_category hp

lemma scrape_category_results_category {now name : String} {si : SearchInfo}
    {site : ℕ → FixturePageNew} {p : PartData}
    (hp : p ∈ scrape_category_results now name si site) :
    p.category = some name := by
  unfold scrape_category_results at hp
  rcases List.mem_flatten.mp hp with ⟨page, hpage, hp2⟩
  exact paginateNew_mem_category now { si with category := some name } site
    50 1 (by omega) page hpage p hp2

lemma dictUpd_forall {α : Type} (P : String → α → Prop)
    (m : List (String × α)) (k : String) (v : α)
    (hm : ∀ a b, (a, b) ∈ m → P a b) (hkv : P k v) :
    ∀ a b, (a, b) ∈ dictUpd m k v → P a b := by
  intro a b hab
  unfold dictUpd at hab
  by_cases hex : m.any (fun p => p.1 = k)
  · rw [if_pos hex] at hab
    rcases List.mem_map.mp hab with ⟨q, hq, heq⟩
    by_cases hq1 : q.1 = k
    · rw [if_pos hq1] at heq
      cases heq
      exact hkv
    · rw [if_neg hq1] at heq
      rcases q with ⟨qa, qb⟩
      cases heq
      exact hm a b hq
  · rw [if_neg hex] at hab
    rcases List.mem_append.mp hab with hleft | hright
    · exact hm a b hleft
    · rcases List.mem_singleton.mp hright with heq
      cases heq
      exact hkv

lemma categoriesLoop_category (now lp pn : String)
    (sites : ℕ → ℕ → FixturePageNew) (failAt : Option ℕ) :
    ∀ (urls : List (String × String)) (i : ℕ)
      (acc : List (String × List PartData)),
      (∀ k ps, (k, ps) ∈ acc → ∀ p ∈ ps, p.category = some k) →
      ∀ k ps, (k, ps) ∈ categoriesLoop now lp pn sites failAt i urls acc →
        ∀ p ∈ ps, p.category = some k := by
  intro urls
  induction urls with
  | nil =>
    intro i acc hacc k ps hmem
    exact hacc k ps hmem
  | cons u rest ih =>
    intro i acc hacc k ps hmem
    rcases u with ⟨name, url⟩
    simp only [categoriesLoop] at hmem
    by_cases hf : failAt = some i
    · rw [if_pos hf] at hmem
      exact hacc k ps hmem
    · rw [if_neg hf] at hmem
      refine ih (i + 1) _ ?_ k ps hmem
      intro k2 ps2 hmem2 p hp
      by_cases hempty :
        (scrape_category_results now name
          ⟨some lp, some pn, none⟩ (sites i)).isEmpty
      · rw [if_pos hempty] at hmem2
        exact hacc k2 ps2 hmem2 p hp
      · rw [if_neg hempty] at hmem2
        refine dictUpd_forall
          (fun a b => ∀ q ∈ b, q.category = some a) acc name _
          (fun a b hab => hacc a b hab) ?_ k2 ps2 hmem2 p hp
        intro q hq
        exact scrape_category_results_category hq

lemma categoriesLoop_take (now lp pn : String)
    (sites : ℕ → ℕ → FixturePageNew) :
    ∀ (urls : List (String × String)) (i j : ℕ)
      (acc : List (String × List PartData)), j ≤ i →
      categoriesLoop now lp pn sites (some i) j urls acc =
        categoriesLoop now lp pn sites none j (urls.take (i - j)) acc := by
  intro urls
  induction urls with
  | nil =>
    intro i j acc hji
    simp [categoriesLoop]
  | cons u rest ih =>
    intro i j acc hji
    rcases u with ⟨name, url⟩
    by_cases hj : j = i
    · subst hj
      simp [categoriesLoop]
    · have hlt : j < i := lt_of_le_of_ne hji hj
      have hij : i - j = (i - j - 1) + 1 := by omega
      rw [hij, List.take_succ_cons]
      simp only [categoriesLoop]
      rw [if_neg (by simpa using fun he => hj he.symm),
        if_neg (by simp : ¬(none : Option ℕ) = some j)]
      have := ih i (j + 1)
        (if (scrape_category_results now name
            ⟨some lp, some pn, none⟩ (sites j)).isEmpty then acc
          else dictUpd acc name
            (scrape_category_results now name ⟨some lp, some pn, none⟩
              (sites j)))
        (by omega)
      rw [this]
      rfl

/- ### C6 -/

/-- C6: `scrape_parts` always returns a ScrapeResult value whose categories
mapping is present — the request metadata is always carried in the result;
a model-resolution failure and a no-category-match outcome return it with
empty categories; and an exception raised while processing category `i` is
caught, leaving the partial categories accumulated from the first `i`
resolved categories. -/
theorem scrape_parts_always_returns (env : OrchEnv) :
    ((scrape_parts env).search_info.license_plate = env.license_plate ∧
     (scrape_parts env).search_info.part_name = env.part_name ∧
     (scrape_parts env).search_info.scraped_at = env.now) ∧
    (truthyOptStr env.modeltype = false → (scrape_parts env).categories = []) ∧
    (truthyOptStr env.modeltype = true → env.directItems = none →
      (find_category_urls env.resolver env.part_name).1 = [] →
      (scrape_parts env).categories = []) ∧
    (∀ i, env.failAt = some i → truthyOptStr env.modeltype = true →
      env.directItems = none →
      (scrape_parts env).categories =
        categoriesLoop env.now env.license_plate env.part_name
          env.categorySites none 0
          (((find_category_urls env.resolver env.part_name).1).take i) []) := by
  refine ⟨?_, ?_, ?_, ?_⟩
  · unfold scrape_parts
    dsimp only
    repeat' split
    all_goals exact ⟨rfl, rfl, rfl⟩
  · intro h
    unfold scrape_parts
    rw [if_pos (by rw [h]; rfl)]
  · intro h1 h2 h3
    unfold scrape_parts
    rw [if_neg (by rw [h1]; simp)]
    rw [if_neg (by rw [h2]; simp [detect_page_type])]
    rw [if_pos (by rw [h3]; rfl)]
  · intro i hfail h1 h2
    unfold scrape_parts
    rw [if_neg (by rw [h1]; simp)]
    rw [if_neg (by rw [h2]; simp [detect_page_type])]
    by_cases hurls : (find_category_urls env.resolver env.part_name).1.isEmpty
    · rw [if_pos hurls]
      have hnil : (find_category_urls env.resolver env.part_name).1 = [] :=
        List.isEmpty_iff.mp hurls
      rw [hnil]
      simp [categoriesLoop]
    · rw [if_neg hurls]
      rw [hfail]
      exact categoriesLoop_take env.now env.license_plate env.part_name
        env.categorySites (find_category_urls env.resolver env.part_name).1
        i 0 [] (Nat.zero_le i)

/-- C6 witness fixture: a failed model lookup. -/
def c6envA : OrchEnv :=
  { license_plate := "XX99YY", part_name := "Deur", now := "T",
    modeltype := none, directItems := none, resolver := ⟨false, [], []⟩,
    categorySites := fun _ _ => ⟨none, .absent⟩, failAt := none }

/-- C6 witness fixture: a category page on which no strategy matches. -/
def c6envB : OrchEnv :=
  { c6envA with modeltype := some "8601", resolver := ⟨true, [], []⟩ }

/-- C6 witness fixture: an exception raised while processing the first
resolved category. -/
def c6envC : OrchEnv :=
  { c6envB with
      resolver := ⟨true, [⟨some "Deur", none, "Deur", some "/onderdeel/deur/"⟩], []⟩
      failAt := some 0 }

/-- C6 witness: all three failure modes still return a result value — empty
categories on model failure and on no-match, the empty partial accumulation
on an exception at the first category, with the request metadata intact. -/
theorem scrape_parts_always_returns_witness :
    (scrape_parts c6envA).categories = [] ∧
    (scrape_parts c6envB).categories = [] ∧
    (scrape_parts c6envC).categories =
      categoriesLoop c6envC.now c6envC.license_plate c6envC.part_name
        c6envC.categorySites none 0
        (((find_category_urls c6envC.resolver c6envC.part_name).1).take 0) [] ∧
    (scrape_parts c6envA).search_info.license_plate = "XX99YY" :=
  ⟨(scrape_parts_always_returns c6envA).2.1 rfl,
   (scrape_parts_always_returns c6envB).2.2.1 rfl rfl (by decide),
   (scrape_parts_always_returns c6envC).2.2.2 0 rfl rfl rfl,
   (scrape_parts_always_returns c6envA).1.1⟩

/- ### C8 -/

/-- C8 fixture: a titled item on the direct-results page. -/
def c8item : LiItem :=
  ⟨some ⟨some "Remschijf achter"⟩, none, none, [], none, none⟩

/-- C8 fixture: a scrape whose listing page is already a results page, so
the orchestrator extracts it directly under the label `Direct Results`. -/
def c8env : OrchEnv :=
  { license_plate := "27XHVX", part_name := "Remschijf", now := "T",
    modeltype := some "8601", directItems := some [c8item],
    resolver := ⟨false, [], []⟩, categorySites := fun _ _ => ⟨none, .absent⟩,
    failAt := none }

/-- C8 counterexample: on the direct-results path the search info passed to
the extractor has no category key, so the records filed under
`Direct Results` carry a `None` category rather than the key they are filed
under — the claimed invariant fails there. -/
theorem scrape_parts_direct_category_mismatch :
    ∃ kv ∈ (scrape_parts c8env).categories, ∃ p ∈ kv.2,
      p.category ≠ some kv.1 := by
  decide

/-- C8 (amended): every record filed under a category key by the
per-category path carries that key as its own category field, while records
filed under `Direct Results` by the direct path carry no category at all. -/
theorem scrape_parts_category_field (env : OrchEnv) (k : String)
    (ps : List PartData) (p : PartData)
    (hmem : (k, ps) ∈ (scrape_parts env).categories) (hp : p ∈ ps) :
    p.category = if env.directItems.isSome then none else some k := by
  by_cases h1 : truthyOptStr env.modeltype = true
  · cases hdir : env.directItems with
    | some items =>
      have hcat : (scrape_parts env).categories =
          [("Direct Results",
            extract_part_data env.now env.directItems
              ⟨some env.license_plate, some env.part_name, none⟩)] := by
        unfold scrape_parts
        rw [if_neg (by rw [h1]; simp)]
        rw [if_pos (by rw [hdir]; rfl)]
      rw [hcat] at hmem
      have heq := List.mem_singleton.mp hmem
      have hk : k = "Direct Results" := congrArg Prod.fst heq
      have hps : ps = extract_part_data env.now env.directItems
          ⟨some env.license_plate, some env.part_name, none⟩ :=
        congrArg Prod.snd heq
      subst hps
      have := mem_extract_category hp
      simpa using this
    | none =>
      unfold scrape_parts at hmem
      rw [if_neg (by rw [h1]; simp)] at hmem
      rw [if_neg (by rw [hdir]; simp [detect_page_type])] at hmem
      by_cases hurls :
        (find_category_urls env.resolver env.part_name).1.isEmpty
      · rw [if_pos hurls] at hmem
        simp at hmem
      · rw [if_neg hurls] at hmem
        have := categoriesLoop_category env.now env.license_plate
          env.part_name env.categorySites env.failAt
          (find_category_urls env.resolver env.part_name).1 0 []
          (by simp) k ps hmem p hp
        simpa using this
  · have hempty : (scrape_parts env).categories = [] := by
      unfold scrape_parts
      rw [if_pos (by simp [Bool.not_eq_true] at h1; rw [h1]; rfl)]
    rw [hempty] at hmem
    simp at hmem

/-- C8 witness fixture: a result item behind a resolved category. -/
def c8item2 : LiItem :=
  ⟨some ⟨some "Velg staal"⟩, none, none, [], none, none⟩

/-- C8 witness fixture: a one-page category site holding that item. -/
def c8wsite : ℕ → FixturePageNew := fun _ => ⟨some [c8item2], .absent⟩

/-- C8 witness fixture: a scrape resolving one category (`Velg`). -/
def c8wcat : OrchEnv :=
  { license_plate := "27XHVX", part_name := "Velgen", now := "T",
    modeltype := some "8601", directItems := none,
    resolver := ⟨true, [⟨some "Velg", none, "Velg", some "/onderdeel/velg/"⟩], []⟩,
    categorySites := fun _ => c8wsite, failAt := none }

/-- C8 witness: a record filed under `Velg` by the category path carries
category `Velg`, and a record filed under `Direct Results` by the direct
path carries no category. -/
theorem scrape_parts_category_field_witness :
    (buildPart "T" ⟨some "27XHVX", some "Velgen", some "Velg"⟩
        c8item2).category =
      (if c8wcat.directItems.isSome then none else some "Velg") ∧
    (buildPart "T" ⟨some "27XHVX", some "Remschijf", none⟩ c8item).category =
      (if c8env.directItems.isSome then none else some "Direct Results") :=
  ⟨scrape_parts_category_field c8wcat "Velg"
      [buildPart "T" ⟨some "27XHVX", some "Velgen", some "Velg"⟩ c8item2]
      (buildPart "T" ⟨some "27XHVX", some "Velgen", some "Velg"⟩ c8item2)
      (by
        have hstop : paginateNew "T" ⟨some "27XHVX", some "Velgen", some "Velg"⟩
            (c8wcat.categorySites 0) 1 =
            [extract_part_data "T" ((c8wcat.categorySites 0) 1).items
              ⟨some "27XHVX", some "Velgen", some "Velg"⟩] :=
          paginateNew_stop "T" ⟨some "27XHVX", some "Velgen", some "Velg"⟩
            (c8wcat.categorySites 0) 1 rfl
        have hparts : scrape_category_results "T" "Velg"
            ⟨some "27XHVX", some "Velgen", none⟩ (c8wcat.categorySites 0) =
            [buildPart "T" ⟨some "27XHVX", some "Velgen", some "Velg"⟩
              c8item2] := by
          unfold scrape_category_results
          rw [hstop]
          decide
        have hurl : (find_category_urls c8wcat.resolver c8wcat.part_name).1 =
            [("Velg", base_url ++ "/onderdeel/velg/")] := by decide
        have hcats : (scrape_parts c8wcat).categories =
            [("Velg",
              [buildPart "T" ⟨some "27XHVX", some "Velgen", some "Velg"⟩
                c8item2])] := by
          unfold scrape_parts
          rw [if_neg (by decide), if_neg (by decide),
            if_neg (by rw [hurl]; decide)]
          show categoriesLoop c8wcat.now c8wcat.license_plate c8wcat.part_name
              c8wcat.categorySites c8wcat.failAt 0
              (find_category_urls c8wcat.resolver c8wcat.part_name).1 [] =
            [("Velg",
              [buildPart "T" ⟨some "27XHVX", some "Velgen", some "Velg"⟩
                c8item2])]
          rw [hurl]
          show categoriesLoop "T" "27XHVX" "Velgen" c8wcat.categorySites none 0
              [("Velg", base_url ++ "/onderdeel/velg/")] [] = _
          simp only [categoriesLoop]
          rw [if_neg (by simp)]
          rw [hparts]
          decide
        rw [hcats]
        exact List.mem_singleton.mpr rfl)
      (by decide),
   scrape_parts_category_field c8env "Direct Results"
      (extract_part_data "T" (some [c8item])
        ⟨some "27XHVX", some "Remschijf", none⟩)
      (buildPart "T" ⟨some "27XHVX", some "Remschijf", none⟩ c8item)
      (by decide) (by decide)⟩

end Onderdelen
